import Mathlib

/-!
Verification of the phishing-email-detector repository.

The repository has two source files, `src/main.py` (a batch CLI) and
`src/web.py` (a Flask view); each contains its own variant of the scoring
engine (`score_email`) plus domain-extraction helpers.  This development
embeds both variants shallowly: Python strings are modelled as `List Char`
(`Str`), Python dict rows as association lists (`Dict`), and each Python
function becomes a Lean function of the same name, translated line by line.
Python `str.lower` is modelled by the ASCII case mapping (all configured
rule data in the repository is ASCII); `str.strip` trims the ASCII
whitespace characters.
-/

namespace Phish

/-- A Python string, modelled as its list of characters. -/
abbrev Str := List Char

/-- Convert a Lean string literal into the `Str` model. -/
def str (s : String) : Str := s.data

/-- Python `str.lower` (ASCII case mapping). -/
def lower (s : Str) : Str := s.map Char.toLower

/-- Characters removed by Python `str.strip()` (ASCII whitespace). -/
def pyIsSpace (c : Char) : Bool :=
  c == ' ' || c == '\t' || c == '\n' || c == '\x0d' || c == '\x0b' || c == '\x0c'

/-- Python `str.strip()`: remove leading and trailing whitespace. -/
def strip (s : Str) : Str :=
  ((s.dropWhile pyIsSpace).reverse.dropWhile pyIsSpace).reverse

/-- Python `str.startswith`: does `n` occur as a leading segment of `h`? -/
def isPre : Str → Str → Bool
  | [], _ => true
  | _ :: _, [] => false
  | a :: as, b :: bs => a == b && isPre as bs

/-- Python `n in h` on strings: does `n` occur as a contiguous substring of `h`? -/
def strIn (n : Str) : Str → Bool
  | [] => isPre n []
  | c :: t => isPre n (c :: t) || strIn n t

/-- The suffix after the first occurrence of `c`, or `none` when `c` is absent. -/
def afterFirst (c : Char) : Str → Option Str
  | [] => none
  | x :: t => if x = c then some t else afterFirst c t

/-- Split at the first occurrence of `c`: `(part before, part after)`. -/
def breakAtFirst (c : Char) : Str → Option (Str × Str)
  | [] => none
  | x :: t =>
    if x = c then some ([], t)
    else
      match breakAtFirst c t with
      | none => none
      | some (b, a) => some (x :: b, a)

/-- A CSV row / Python dict: an association list from key to string value. -/
abbrev Dict := List (Str × Str)

/-- Python `row.get(k)`. -/
def pyGet (d : Dict) (k : Str) : Option Str :=
  match d with
  | [] => none
  | (k', v) :: t => if k' = k then some v else pyGet t k

/-- Python `(row.get(k) or "")`: `None` and the empty string both become `""`. -/
def getOr (o : Option Str) : Str :=
  match o with
  | none => []
  | some s => s

/-- Field access as the sources perform it: `row.get(k) or ""`. -/
def fget (row : Dict) (k : String) : Str := getOr (pyGet row (str k))

/-! ### Domain extraction (`src/main.py` lines 17-27, `src/web.py` lines 115-119) -/

namespace Main

/-- `src/main.py` `domain_from_email`: empty when no `@`, else the lowercased,
stripped part after the first `@`. -/
def domain_from_email (email : Str) : Str :=
  match afterFirst '@' email with
  | none => []
  | some rest => strip (lower rest)

end Main

/-- Characters allowed after the first character of a URL scheme
(CPython `urllib.parse.scheme_chars`). -/
def scheme_chars : Str :=
  str "abcdefghijklmnopqrstuvwxyzABCDEFGHIJKLMNOPQRSTUVWXYZ0123456789+-."

/-- ASCII letter test (CPython checks `url[0].isascii() and url[0].isalpha()`). -/
def isAsciiAlpha (c : Char) : Bool :=
  ('a' ≤ c && c ≤ 'z') || ('A' ≤ c && c ≤ 'Z')

/-- CPython `urlsplit` first removes the unsafe bytes `"\t\r\n"` from the URL. -/
def removeUnsafe (s : Str) : Str :=
  s.filter (fun c => !(c == '\t' || c == '\x0d' || c == '\n'))

/-- CPython `urlsplit` scheme handling: when the text before the first `:` is a
well-formed scheme (leading ASCII letter, then scheme characters), drop it;
otherwise leave the URL untouched. -/
def splitScheme (url : Str) : Str :=
  match breakAtFirst ':' url with
  | none => url
  | some (before, after) =>
    match before with
    | [] => url
    | c0 :: rest =>
      if isAsciiAlpha c0 && rest.all (fun c => scheme_chars.contains c) then after
      else url

/-- The netloc runs from after `//` up to the first `/`, `?` or `#`. -/
def takeNetloc (s : Str) : Str :=
  s.takeWhile (fun c => !(c == '/' || c == '?' || c == '#'))

/-- The netloc component of CPython `urlparse`, with its `Invalid IPv6 URL`
`ValueError` (an unmatched bracket in the netloc) modelled as `Except.error`.
(The additional bracketed-host validation of very recent CPython versions is
not modelled; no configured input reaches it.) -/
def pyUrlsplitNetloc (url : Str) : Except Unit Str :=
  let rest := splitScheme (removeUnsafe url)
  if isPre (str "//") rest then
    let netloc := takeNetloc (rest.drop 2)
    if (netloc.contains '[' && !netloc.contains ']')
        || (netloc.contains ']' && !netloc.contains '[') then
      .error ()
    else .ok netloc
  else .ok []

namespace Main

/-- `src/main.py` `domain_from_url`: `urlparse(url).netloc.lower().strip()`,
with any parse failure caught and turned into the empty string. -/
def domain_from_url (url : Str) : Str :=
  match pyUrlsplitNetloc url with
  | .error _ => []
  | .ok n => strip (lower n)

end Main

namespace Web

/-- `src/web.py` `get_domain`: `(urlparse(url).netloc or "").lower()`,
with any parse failure caught and turned into the empty string. -/
def get_domain (url : Str) : Str :=
  match pyUrlsplitNetloc url with
  | .error _ => []
  | .ok n => lower n

/-- `src/web.py` `lookalike_hint`. -/
def lookalike_hint (text : Str) : Bool :=
  [str "0", str "1", str "secure-", str "-secure", str "login-", str "-login"].any
    (fun x => strIn x (lower text))

end Web

/-! ### The scoring engines -/

/-- One rule firing: when `c` holds, add `pts` to the score and append `tag`
to the reason list (the shape of every `score += ...; reasons.append(...)`
pair in both sources). -/
def addIf (c : Prop) [Decidable c] (pts : Int) (tag : Str) (st : Int × List Str) :
    Int × List Str :=
  if c then (st.1 + pts, st.2 ++ [tag]) else st

namespace Main

/-- `src/main.py` `SUSPICIOUS_KEYWORDS`. -/
def SUSPICIOUS_KEYWORDS : List Str :=
  [str "verify", str "locked", str "suspended", str "action required", str "urgent",
   str "payment failed", str "compromised", str "secure", str "reset", str "unusual login"]

/-- `src/main.py` `BRAND_KEYWORDS`. -/
def BRAND_KEYWORDS : List Str :=
  [str "amazon", str "paypal", str "netflix", str "apple", str "bank"]

/-- `src/main.py` risky-extension list (line 78). -/
def RISKY_EXTS : List Str :=
  [str ".exe", str ".js", str ".vbs", str ".bat", str ".scr", str ".zip",
   str ".iso", str ".docm", str ".xlsm"]

/-- The reason tag of a keyword firing in `src/main.py`. -/
def ktag (kw : Str) : Str := str "keyword:" ++ kw

/-- The reason tag of a brand-mismatch firing in `src/main.py`. -/
def btag (b : Str) : Str := str "brand_domain_mismatch:" ++ b

/-- Keyword loop of `src/main.py` lines 44-47. -/
def kwStep (text : Str) (st : Int × List Str) : Int × List Str :=
  SUSPICIOUS_KEYWORDS.foldl (fun a kw => addIf (strIn kw text) 2 (ktag kw) a) st

/-- Brand condition of `src/main.py` line 63. -/
def brandCond (sender sender_domain : Str) (b : Str) : Bool :=
  strIn b sender && !strIn b sender_domain

/-- Brand loop of `src/main.py` lines 62-66: fires for the first matching
brand only (the loop `break`s after a match). -/
def brandStep (sender sender_domain : Str) (st : Int × List Str) : Int × List Str :=
  match BRAND_KEYWORDS.find? (brandCond sender sender_domain) with
  | some b => (st.1 + 3, st.2 ++ [btag b])
  | none => st

/-- Lookalike condition of `src/main.py` line 69:
`"0" in links or ("-" in link_domain and link_domain)`. -/
def lookCond (links link_domain : Str) : Bool :=
  strIn (str "0") links || (strIn (str "-") link_domain && !(link_domain == []))

/-- Guard of the link block, `src/main.py` line 50:
`links and links.lower() != "none"`. -/
def linkActive (links : Str) : Prop :=
  links ≠ [] ∧ lower links ≠ str "none"

instance (links : Str) : Decidable (linkActive links) := by
  unfold linkActive; infer_instance

/-- Link block of `src/main.py` lines 50-71. -/
def linkBlock (sender links : Str) (st : Int × List Str) : Int × List Str :=
  if linkActive links then
    addIf (lookCond links (domain_from_url links)) 1 (str "lookalike_hint")
      (brandStep sender (domain_from_email sender)
        (addIf (domain_from_url links ≠ [] ∧ domain_from_email sender ≠ [] ∧
                domain_from_url links ≠ domain_from_email sender)
          2 (str "link_domain_mismatch")
          (addIf (isPre (str "http://") (lower links)) 3 (str "link:http") st)))
  else st

/-- Attachment block of `src/main.py` lines 74-81. -/
def attachBlock (attachments : Str) (st : Int × List Str) : Int × List Str :=
  if attachments ≠ [] ∧ attachments ≠ str "none" then
    addIf (RISKY_EXTS.any (fun e => strIn e attachments)) 4 (str "risky_attachment_type")
      (st.1 + 2, st.2 ++ [str "has_attachment"])
  else st

/-- Normalized sender of `src/main.py` line 34. -/
def rowSender (row : Dict) : Str := lower (fget row "sender")

/-- Normalized links of `src/main.py` line 37. -/
def rowLinks (row : Dict) : Str := strip (fget row "links")

/-- Normalized attachments of `src/main.py` line 38. -/
def rowAttachments (row : Dict) : Str := strip (lower (fget row "attachments"))

/-- Keyword search text of `src/main.py` line 43: `f"{subject} {body}"`. -/
def rowText (row : Dict) : Str :=
  lower (fget row "subject") ++ ' ' :: lower (fget row "body")

/-- `src/main.py` `score_email` (lines 30-83). -/
def score_email (row : Dict) : Int × List Str :=
  attachBlock (rowAttachments row)
    (linkBlock (rowSender row) (rowLinks row)
      (kwStep (rowText row) (0, [])))

end Main

namespace Web

/-- `src/web.py` `KEYWORDS`. -/
def KEYWORDS : List Str :=
  [str "verify", str "suspended", str "action required", str "locked",
   str "payment failed", str "compromised", str "secure", str "reset", str "unusual login"]

/-- `src/web.py` `BRANDS`: brand keyword paired with its legitimate domains. -/
def BRANDS : List (Str × List Str) :=
  [(str "amazon", [str "amazon.com"]),
   (str "paypal", [str "paypal.com"]),
   (str "netflix", [str "netflix.com"]),
   (str "apple", [str "apple.com", str "icloud.com"])]

/-- The reason string of a keyword firing in `src/web.py`:
`f"Keyword match: \x27{k}\x27"`. -/
def ktag (k : Str) : Str := str "Keyword match: \x27" ++ k ++ str "\x27"

/-- The reason string of a brand-mismatch firing in `src/web.py`. -/
def btag (b : Str) : Str := str "Brand/domain mismatch: " ++ b

/-- Keyword loop of `src/web.py` lines 136-139 over `f"{sender} {subject} {body}"`. -/
def kwStep (blob : Str) (st : Int × List Str) : Int × List Str :=
  KEYWORDS.foldl (fun a k => addIf (strIn k blob) 2 (ktag k) a) st

/-- Attachment block of `src/web.py` lines 141-144 (no risky-extension rule
in this profile, and no `strip` on the attachments field). -/
def attachBlock (attachments : Str) (st : Int × List Str) : Int × List Str :=
  if attachments ≠ [] ∧ attachments ≠ str "none" then
    (st.1 + 2, st.2 ++ [str "Has attachment"])
  else st

/-- Sender domain of `src/web.py` line 152:
`sender.split("@")[-1] if "@" in sender else ""` (after the **last** `@`). -/
def senderDomain (sender : Str) : Str :=
  if sender.contains '@' then ((sender.reverse.takeWhile (fun c => !(c == '@'))).reverse)
  else []

/-- Brand condition of `src/web.py` lines 159-160. -/
def brandCond (sender subject body : Str) (p : Str × List Str) : Bool :=
  (strIn p.1 sender || strIn p.1 subject || strIn p.1 body)
    && !(p.2.any (fun d => strIn d sender))

/-- Guard of the link block, `src/web.py` line 146. -/
def linkActive (links : Str) : Prop :=
  links ≠ [] ∧ lower links ≠ str "none"

instance (links : Str) : Decidable (linkActive links) := by
  unfold linkActive; infer_instance

/-- Link block of `src/web.py` lines 146-162 (HTTP link, link/sender domain
mismatch, and the per-brand accumulation loop, all gated on an active link). -/
def linkBlock (sender subject body links : Str) (st : Int × List Str) : Int × List Str :=
  if linkActive links then
    BRANDS.foldl (fun a p => addIf (brandCond sender subject body p) 3 (btag p.1) a)
      (addIf (get_domain links ≠ [] ∧ senderDomain sender ≠ [] ∧
              get_domain links ≠ senderDomain sender)
        2 (str "Link domain differs from sender domain")
        (addIf (isPre (str "http://") (lower links)) 2 (str "HTTP link (not HTTPS)") st))
  else st

/-- Lookalike rule of `src/web.py` lines 164-166 (outside the link block). -/
def lookBlock (sender links : Str) (st : Int × List Str) : Int × List Str :=
  addIf (lookalike_hint sender || lookalike_hint links) 1 (str "Possible lookalike pattern") st

/-- Normalized sender of `src/web.py` line 126. -/
def rowSender (row : Dict) : Str := lower (fget row "sender")

/-- Normalized subject of `src/web.py` line 127. -/
def rowSubject (row : Dict) : Str := lower (fget row "subject")

/-- Normalized body of `src/web.py` line 128. -/
def rowBody (row : Dict) : Str := lower (fget row "body")

/-- Normalized links of `src/web.py` line 129. -/
def rowLinks (row : Dict) : Str := strip (fget row "links")

/-- Attachments of `src/web.py` line 141 (lowercased, not stripped). -/
def rowAttachments (row : Dict) : Str := lower (fget row "attachments")

/-- Keyword blob of `src/web.py` line 134: `f"{sender} {subject} {body}"`. -/
def rowBlob (row : Dict) : Str :=
  rowSender row ++ ' ' :: rowSubject row ++ ' ' :: rowBody row

/-- `src/web.py` `score_email` (lines 125-168). -/
def score_email (row : Dict) : Int × List Str :=
  lookBlock (rowSender row) (rowLinks row)
    (linkBlock (rowSender row) (rowSubject row) (rowBody row) (rowLinks row)
      (attachBlock (rowAttachments row)
        (kwStep (rowBlob row) (0, []))))

end Web

/-! ### Point values of reason tags

Each reason string produced by a profile determines the point delta of the
rule that appended it; these maps record the per-rule deltas of the two
sources (`src/main.py` lines 44-81, `src/web.py` lines 136-166). -/

namespace Main

/-- Point delta of each reason tag of the CLI profile. -/
def delta (tag : Str) : Int :=
  if isPre (str "keyword:") tag then 2
  else if isPre (str "brand_domain_mismatch:") tag then 3
  else if tag = str "link:http" then 3
  else if tag = str "link_domain_mismatch" then 2
  else if tag = str "lookalike_hint" then 1
  else if tag = str "has_attachment" then 2
  else if tag = str "risky_attachment_type" then 4
  else 0

end Main

namespace Web

/-- Point delta of each reason string of the web profile. -/
def delta (tag : Str) : Int :=
  if isPre (str "Keyword match: \x27") tag then 2
  else if isPre (str "Brand/domain mismatch: ") tag then 3
  else if tag = str "Has attachment" then 2
  else if tag = str "HTTP link (not HTTPS)" then 2
  else if tag = str "Link domain differs from sender domain" then 2
  else if tag = str "Possible lookalike pattern" then 1
  else 0

end Web

/-- Sum of the point deltas of a reason list. -/
def deltaSum (f : Str → Int) (rs : List Str) : Int := (rs.map f).sum

/-! ### Sorting and filtering (`src/main.py` lines 109-112, `src/web.py` lines 190-203)

Python `list.sort(key=..., reverse=True)` is a stable descending sort by the
key; it is modelled by a stable descending insertion sort (a stable sort's
output is uniquely determined by the key and the input order, so any stable
implementation is a faithful model of Timsort). -/

/-- Insert `x` (a later element) into an already descending-sorted list:
`x` goes after every element whose key is strictly greater, and before the
first element of equal or smaller key, preserving stability. -/
def insDesc {α : Type} (k : α → Int) (x : α) : List α → List α
  | [] => [x]
  | y :: ys => if k x < k y then y :: insDesc k x ys else x :: y :: ys

/-- Stable descending insertion sort by key `k`. -/
def sortDesc {α : Type} (k : α → Int) : List α → List α
  | [] => []
  | x :: xs => insDesc k x (sortDesc k xs)

/-- `src/main.py` lines 103-107: score every row with the CLI engine. -/
def scoreAllMain (rows : List Dict) : List (Dict × (Int × List Str)) :=
  rows.map (fun r => (r, Main.score_email r))

/-- The sort key of both surfaces: the record's score. -/
def skey : Dict × (Int × List Str) → Int := fun e => e.2.1

/-- `src/main.py` line 109: the full report, sorted by score descending. -/
def mainSorted (rows : List Dict) : List (Dict × (Int × List Str)) :=
  sortDesc skey (scoreAllMain rows)

/-- `src/main.py` line 112: the displayed list, the sorted report filtered
by `score >= min_score`. -/
def mainDisplayed (rows : List Dict) (T : Int) : List (Dict × (Int × List Str)) :=
  (mainSorted rows).filter (fun e => decide (T ≤ skey e))

/-- `src/web.py` lines 191-201: score every row with the web engine. -/
def scoreAllWeb (rows : List Dict) : List (Dict × (Int × List Str)) :=
  rows.map (fun r => (r, Web.score_email r))

/-- `src/web.py` lines 200-203: the web view filters by `score >= min_score`
first and sorts the filtered list by score descending afterwards. -/
def webDisplayed (rows : List Dict) (T : Int) : List (Dict × (Int × List Str)) :=
  sortDesc skey ((scoreAllWeb rows).filter (fun e => decide (T ≤ skey e)))

/-! ### State-threaded variants for the frame property

Python passes the row dict by reference; `score_email` interacts with it only
through `row.get`, modelled here as a state-passing read that returns the
dict unchanged.  Threading the dict through every access makes the frame
property (the record is returned exactly as it came in) an explicit theorem. -/

/-- The dict operation `row.get(k) or ""` as a state-passing action. -/
def readField (k : String) (d : Dict) : Str × Dict := (getOr (pyGet d (str k)), d)

namespace Main

/-- `src/main.py` `score_email` with the row dict threaded through each
`row.get` access (lines 34-38), returning the final state of the dict. -/
def score_email_st (d0 : Dict) : (Int × List Str) × Dict :=
  let p1 := readField "sender" d0
  let p2 := readField "subject" p1.2
  let p3 := readField "body" p2.2
  let p4 := readField "links" p3.2
  let p5 := readField "attachments" p4.2
  (attachBlock (strip (lower p5.1))
    (linkBlock (lower p1.1) (strip p4.1)
      (kwStep (lower p2.1 ++ ' ' :: lower p3.1) (0, []))), p5.2)

end Main

namespace Web

/-- `src/web.py` `score_email` with the row dict threaded through each
`row.get` access (lines 126-129 and 141), returning the final dict state. -/
def score_email_st (d0 : Dict) : (Int × List Str) × Dict :=
  let p1 := readField "sender" d0
  let p2 := readField "subject" p1.2
  let p3 := readField "body" p2.2
  let p4 := readField "links" p3.2
  let p5 := readField "attachments" p4.2
  (lookBlock (lower p1.1) (strip p4.1)
    (linkBlock (lower p1.1) (lower p2.1) (lower p3.1) (strip p4.1)
      (attachBlock (lower p5.1)
        (kwStep (lower p1.1 ++ ' ' :: lower p2.1 ++ ' ' :: lower p3.1) (0, [])))), p5.2)

end Web

/-! ### Concrete records used as counterexamples and witnesses -/

/-- A record whose sender names a brand with a foreign domain, but whose
`links` field is empty. -/
def c2row : Dict := [(str "sender", str "paypal@evil.com")]

/-- A record whose link contains the digit `2` (and no other lookalike
signal). -/
def c3row : Dict := [(str "links", str "http://evil2.com")]

/-- A record with a keyword in the subject. -/
def c4row : Dict := [(str "subject", str "Account Suspended")]

/-- A record with a brand-mismatch sender and an active link. -/
def c9row : Dict := [(str "sender", str "paypal@evil.com"), (str "links", str "http://x.com")]

/-- A record holding only an `id` key. -/
def c8row : Dict := [(str "id", str "7")]

/-- Two records that agree on every recognized field but differ elsewhere. -/
def c10rowA : Dict := [(str "id", str "1")]

/-- See `c10rowA`. -/
def c10rowB : Dict := [(str "id", str "2"), (str "extra", str "x")]

/-! ## Theorems -/

/-! ### Generic lemmas about the embedding's string operations -/

/-- Every string is a prefix of itself followed by anything. -/
theorem isPre_append_self (p : Str) : ∀ r : Str, isPre p (p ++ r) = true := by
  induction p with
  | nil => intro r; rfl
  | cons c t ih => intro r; simp [isPre, ih]

/-- Two strings with different head characters are different. -/
theorem ne_of_head {a b : Str} {c d : Char} (ha : a.head? = some c)
    (hb : b.head? = some d) (hcd : c ≠ d) : a ≠ b := by
  intro h
  subst h
  rw [ha] at hb
  exact hcd (Option.some.inj hb)

/-- `afterFirst` finds nothing exactly when the character is absent. -/
theorem afterFirst_eq_none {c : Char} : ∀ {s : Str}, c ∉ s → afterFirst c s = none := by
  intro s h
  induction s with
  | nil => rfl
  | cons x t ih =>
    rw [List.mem_cons, not_or] at h
    simp only [afterFirst, if_neg (Ne.symm h.1)]
    exact ih h.2

/-- `afterFirst` returns the suffix after the first occurrence. -/
theorem afterFirst_append {c : Char} : ∀ {pre : Str} (post : Str), c ∉ pre →
    afterFirst c (pre ++ c :: post) = some post := by
  intro pre
  induction pre with
  | nil => intro post _; simp [afterFirst]
  | cons x t ih =>
    intro post h
    rw [List.mem_cons, not_or] at h
    simp only [List.cons_append, afterFirst, if_neg (Ne.symm h.1)]
    exact ih post h.2

/-! ### The score always equals the sum of the deltas of the reasons -/

/-- Appending one reason adds its delta to the sum. -/
theorem deltaSum_append (f : Str → Int) (rs : List Str) (t : Str) :
    deltaSum f (rs ++ [t]) = deltaSum f rs + f t := by
  simp [deltaSum]

/-- A nonnegative delta map has a nonnegative delta sum. -/
theorem deltaSum_nonneg (f : Str → Int) (hf : ∀ t, 0 ≤ f t) (rs : List Str) :
    0 ≤ deltaSum f rs := by
  unfold deltaSum
  apply List.sum_nonneg
  intro x hx
  obtain ⟨t, -, rfl⟩ := List.mem_map.mp hx
  exact hf t

/-- One rule firing preserves the score-equals-delta-sum invariant. -/
theorem addIf_deltaSum (f : Str → Int) (c : Prop) [Decidable c] (pts : Int) (tag : Str)
    (st : Int × List Str) (hf : f tag = pts) (h : st.1 = deltaSum f st.2) :
    (addIf c pts tag st).1 = deltaSum f (addIf c pts tag st).2 := by
  unfold addIf
  split
  · show st.1 + pts = deltaSum f (st.2 ++ [tag])
    rw [deltaSum_append, hf, h]
  · exact h

/-- A fold of rule firings with a uniform delta preserves the invariant. -/
theorem foldl_addIf_deltaSum {β : Type} (f : Str → Int) (cb : β → Bool) (pts : Int)
    (tagf : β → Str) (hf : ∀ b, f (tagf b) = pts) :
    ∀ (L : List β) (st : Int × List Str), st.1 = deltaSum f st.2 →
      (L.foldl (fun a b => addIf (cb b) pts (tagf b) a) st).1 =
        deltaSum f (L.foldl (fun a b => addIf (cb b) pts (tagf b) a) st).2 := by
  intro L
  induction L with
  | nil => intro st h; exact h
  | cons b t ih =>
    intro st h
    exact ih _ (addIf_deltaSum f _ pts (tagf b) st (hf b) h)

/-! ### Counting occurrences of a reason tag through rule firings -/

/-- Count of a tag after one rule firing. -/
theorem count_addIf (t : Str) (c : Prop) [Decidable c] (pts : Int) (tag : Str)
    (st : Int × List Str) :
    (addIf c pts tag st).2.count t =
      st.2.count t + (if c then (if tag = t then 1 else 0) else 0) := by
  unfold addIf
  split
  · show (st.2 ++ [tag]).count t = _
    rw [List.count_append]
    simp [List.count_cons, List.count_nil]
  · simp

/-- `countP` after one rule firing. -/
theorem countP_addIf (p : Str → Bool) (c : Prop) [Decidable c] (pts : Int) (tag : Str)
    (st : Int × List Str) :
    (addIf c pts tag st).2.countP p =
      st.2.countP p + (if c then (if p tag then 1 else 0) else 0) := by
  unfold addIf
  split
  · show (st.2 ++ [tag]).countP p = _
    rw [List.countP_append]
    simp [List.countP_cons]
  · simp

/-- A fold of rule firings whose tags all differ from `t` leaves the count
of `t` unchanged. -/
theorem count_foldl_addIf_other {β : Type} (t : Str) (cb : β → Bool) (pts : Int)
    (tagf : β → Str) :
    ∀ (L : List β) (st : Int × List Str), (∀ b ∈ L, tagf b ≠ t) →
      (L.foldl (fun a b => addIf (cb b) pts (tagf b) a) st).2.count t = st.2.count t := by
  intro L
  induction L with
  | nil => intro st _; rfl
  | cons b L ih =>
    intro st h
    rw [List.foldl_cons, ih _ (fun b' hb' => h b' (List.mem_cons_of_mem _ hb')),
      count_addIf]
    simp [h b (List.mem_cons_self b L)]

/-- In a fold of rule firings over a list with pairwise-distinct tags, the
tag of the member `x` is counted exactly when the condition of `x` holds. -/
theorem count_foldl_addIf_tagf {β : Type} (cb : β → Bool) (pts : Int) (tagf : β → Str) :
    ∀ (L : List β) (st : Int × List Str) (x : β), x ∈ L → (L.map tagf).Nodup →
      (L.foldl (fun a b => addIf (cb b) pts (tagf b) a) st).2.count (tagf x) =
        st.2.count (tagf x) + (if cb x then 1 else 0) := by
  intro L
  induction L with
  | nil => intro st x hx _; exact absurd hx (List.not_mem_nil x)
  | cons b L ih =>
    intro st x hx hnd
    rw [List.map_cons, List.nodup_cons] at hnd
    obtain ⟨hb, hnd'⟩ := hnd
    rcases List.mem_cons.mp hx with rfl | hxL
    · rw [List.foldl_cons,
        count_foldl_addIf_other (tagf x) cb pts tagf L _
          (fun b' hb' heq => hb (heq ▸ List.mem_map_of_mem tagf hb')),
        count_addIf]
      simp
    · have hne : tagf b ≠ tagf x := fun heq => hb (heq ▸ List.mem_map_of_mem tagf hxL)
      rw [List.foldl_cons, ih _ x hxL hnd', count_addIf]
      simp [hne]

/-- A fold of rule firings whose tags all fail `p` leaves `countP p` unchanged. -/
theorem countP_foldl_addIf_other {β : Type} (p : Str → Bool) (cb : β → Bool) (pts : Int)
    (tagf : β → Str) :
    ∀ (L : List β) (st : Int × List Str), (∀ b ∈ L, p (tagf b) = false) →
      (L.foldl (fun a b => addIf (cb b) pts (tagf b) a) st).2.countP p = st.2.countP p := by
  intro L
  induction L with
  | nil => intro st _; rfl
  | cons b L ih =>
    intro st h
    rw [List.foldl_cons, ih _ (fun b' hb' => h b' (List.mem_cons_of_mem _ hb')),
      countP_addIf]
    simp [h b (List.mem_cons_self b L)]

/-! ### Delta values of the individual tags -/

/-- Every CLI keyword tag is worth 2 points. -/
theorem Main.delta_ktag (kw : Str) : Main.delta (Main.ktag kw) = 2 := by
  unfold Main.delta Main.ktag
  rw [isPre_append_self]
  rfl

/-- Every CLI brand tag is worth 3 points. -/
theorem Main.delta_btag (b : Str) : Main.delta (Main.btag b) = 3 := by
  unfold Main.delta Main.btag
  rw [show isPre (str "keyword:") (str "brand_domain_mismatch:" ++ b) = false from rfl,
    isPre_append_self]
  rfl

/-- The CLI delta map is nonnegative. -/
theorem Main.delta_nonneg (t : Str) : 0 ≤ Main.delta t := by
  unfold Main.delta
  repeat' split
  all_goals decide

/-- Every web keyword reason is worth 2 points. -/
theorem Web.delta_ktag_w (k : Str) : Web.delta (Web.ktag k) = 2 := by
  unfold Web.delta Web.ktag
  rw [show str "Keyword match: \x27" ++ k ++ str "\x27"
      = str "Keyword match: \x27" ++ (k ++ str "\x27") from List.append_assoc _ _ _,
    isPre_append_self]
  rfl

/-- Every web brand reason is worth 3 points. -/
theorem Web.delta_btag_w (b : Str) : Web.delta (Web.btag b) = 3 := by
  unfold Web.delta Web.btag
  rw [show isPre (str "Keyword match: \x27") (str "Brand/domain mismatch: " ++ b) = false
      from rfl,
    isPre_append_self]
  rfl

/-- The web delta map is nonnegative. -/
theorem Web.delta_nonneg_w (t : Str) : 0 ≤ Web.delta t := by
  unfold Web.delta
  repeat' split
  all_goals decide

/-! ### The invariant through the blocks of each engine -/

/-- The keyword loop of the CLI engine preserves the delta-sum invariant. -/
theorem Main.kwStep_deltaSum (text : Str) (st : Int × List Str)
    (h : st.1 = deltaSum Main.delta st.2) :
    (Main.kwStep text st).1 = deltaSum Main.delta (Main.kwStep text st).2 := by
  unfold Main.kwStep
  exact foldl_addIf_deltaSum Main.delta _ 2 Main.ktag Main.delta_ktag _ st h

/-- The brand loop of the CLI engine preserves the delta-sum invariant. -/
theorem Main.brandStep_deltaSum (sender sd : Str) (st : Int × List Str)
    (h : st.1 = deltaSum Main.delta st.2) :
    (Main.brandStep sender sd st).1 = deltaSum Main.delta (Main.brandStep sender sd st).2 := by
  unfold Main.brandStep
  cases hf : Main.BRAND_KEYWORDS.find? (Main.brandCond sender sd) with
  | none => exact h
  | some b =>
    show st.1 + 3 = deltaSum Main.delta (st.2 ++ [Main.btag b])
    rw [deltaSum_append, Main.delta_btag, h]

/-- The link block of the CLI engine preserves the delta-sum invariant. -/
theorem Main.linkBlock_deltaSum (sender links : Str) (st : Int × List Str)
    (h : st.1 = deltaSum Main.delta st.2) :
    (Main.linkBlock sender links st).1 = deltaSum Main.delta (Main.linkBlock sender links st).2 := by
  unfold Main.linkBlock
  split
  · exact addIf_deltaSum _ _ 1 _ _ rfl
      (Main.brandStep_deltaSum _ _ _
        (addIf_deltaSum _ _ 2 _ _ rfl
          (addIf_deltaSum _ _ 3 _ _ rfl h)))
  · exact h

/-- The attachment block of the CLI engine preserves the delta-sum invariant. -/
theorem Main.attachBlock_deltaSum (att : Str) (st : Int × List Str)
    (h : st.1 = deltaSum Main.delta st.2) :
    (Main.attachBlock att st).1 = deltaSum Main.delta (Main.attachBlock att st).2 := by
  unfold Main.attachBlock
  split
  · refine addIf_deltaSum _ _ 4 _ _ rfl ?_
    show st.1 + 2 = deltaSum Main.delta (st.2 ++ [str "has_attachment"])
    rw [deltaSum_append, h]
    rfl
  · exact h

/-- The keyword loop of the web engine preserves the delta-sum invariant. -/
theorem Web.kwStep_deltaSum_w (blob : Str) (st : Int × List Str)
    (h : st.1 = deltaSum Web.delta st.2) :
    (Web.kwStep blob st).1 = deltaSum Web.delta (Web.kwStep blob st).2 := by
  unfold Web.kwStep
  exact foldl_addIf_deltaSum Web.delta _ 2 Web.ktag Web.delta_ktag_w _ st h

/-- The attachment block of the web engine preserves the delta-sum invariant. -/
theorem Web.attachBlock_deltaSum_w (att : Str) (st : Int × List Str)
    (h : st.1 = deltaSum Web.delta st.2) :
    (Web.attachBlock att st).1 = deltaSum Web.delta (Web.attachBlock att st).2 := by
  unfold Web.attachBlock
  split
  · show st.1 + 2 = deltaSum Web.delta (st.2 ++ [str "Has attachment"])
    rw [deltaSum_append, h]
    rfl
  · exact h

/-- The link block of the web engine preserves the delta-sum invariant. -/
theorem Web.linkBlock_deltaSum_w (sender subject body links : Str) (st : Int × List Str)
    (h : st.1 = deltaSum Web.delta st.2) :
    (Web.linkBlock sender subject body links st).1 =
      deltaSum Web.delta (Web.linkBlock sender subject body links st).2 := by
  unfold Web.linkBlock
  split
  · refine foldl_addIf_deltaSum Web.delta _ 3 (fun (p : Str × List Str) => Web.btag p.1)
      (fun p => Web.delta_btag_w p.1) _ _ ?_
    exact addIf_deltaSum _ _ 2 _ _ rfl (addIf_deltaSum _ _ 2 _ _ rfl h)
  · exact h

/-- The lookalike rule of the web engine preserves the delta-sum invariant. -/
theorem Web.lookBlock_deltaSum (sender links : Str) (st : Int × List Str)
    (h : st.1 = deltaSum Web.delta st.2) :
    (Web.lookBlock sender links st).1 = deltaSum Web.delta (Web.lookBlock sender links st).2 := by
  unfold Web.lookBlock
  exact addIf_deltaSum _ _ 1 _ _ rfl h

/-! ### Head characters of the tag families (used to separate the rules) -/

/-- CLI keyword tags start with `k`. -/
theorem Main.ktag_head (kw : Str) : (Main.ktag kw).head? = some 'k' := rfl

/-- CLI brand tags start with `b`. -/
theorem Main.btag_head (b : Str) : (Main.btag b).head? = some 'b' := rfl

/-- Web keyword reasons start with `K`. -/
theorem Web.ktag_head_w (k : Str) : (Web.ktag k).head? = some 'K' := rfl

/-- Web brand reasons start with `B`. -/
theorem Web.btag_head_w (b : Str) : (Web.btag b).head? = some 'B' := rfl

/-! ### Counting one tag through the blocks of the CLI engine -/

/-- The CLI keyword loop does not touch tags outside the keyword family. -/
theorem Main.count_kwStep_other (t text : Str) (st : Int × List Str)
    (hk : ∀ kw, Main.ktag kw ≠ t) :
    (Main.kwStep text st).2.count t = st.2.count t := by
  unfold Main.kwStep
  exact count_foldl_addIf_other t _ 2 Main.ktag _ st (fun b _ => hk b)

/-- The CLI keyword loop appends the tag of a configured keyword exactly when
the keyword occurs in the search text. -/
theorem Main.count_kwStep_self (text : Str) (st : Int × List Str) (kw : Str)
    (hkw : kw ∈ Main.SUSPICIOUS_KEYWORDS) :
    (Main.kwStep text st).2.count (Main.ktag kw) =
      st.2.count (Main.ktag kw) + (if strIn kw text then 1 else 0) := by
  unfold Main.kwStep
  exact count_foldl_addIf_tagf _ 2 Main.ktag _ st kw hkw (by decide)

/-- The CLI brand loop does not touch tags outside the brand family. -/
theorem Main.count_brandStep_other (t sender sd : Str) (st : Int × List Str)
    (hb : ∀ b, Main.btag b ≠ t) :
    (Main.brandStep sender sd st).2.count t = st.2.count t := by
  unfold Main.brandStep
  cases hf : Main.BRAND_KEYWORDS.find? (Main.brandCond sender sd) with
  | none => rfl
  | some b =>
    show (st.2 ++ [Main.btag b]).count t = st.2.count t
    rw [List.count_append]
    simp [List.count_singleton, hb b]

/-- The CLI brand loop appends the tag of brand `b` exactly when `b` is the
first brand satisfying the brand condition. -/
theorem Main.count_brandStep_self (sender sd : Str) (st : Int × List Str) (b : Str) :
    (Main.brandStep sender sd st).2.count (Main.btag b) =
      st.2.count (Main.btag b) +
        (if Main.BRAND_KEYWORDS.find? (Main.brandCond sender sd) = some b then 1 else 0) := by
  unfold Main.brandStep
  cases hf : Main.BRAND_KEYWORDS.find? (Main.brandCond sender sd) with
  | none => simp [hf]
  | some b' =>
    show (st.2 ++ [Main.btag b']).count (Main.btag b) = _
    rw [List.count_append]
    by_cases hbb : b' = b
    · subst hbb
      simp [hf, List.count_singleton]
    · have hne : Main.btag b' ≠ Main.btag b := fun h => hbb (List.append_cancel_left h)
      simp [hf, List.count_singleton, hne, hbb]

/-- The CLI link block does not touch tags outside its four rule families. -/
theorem Main.count_linkBlock_other (t sender links : Str) (st : Int × List Str)
    (h1 : str "link:http" ≠ t) (h2 : str "link_domain_mismatch" ≠ t)
    (h3 : str "lookalike_hint" ≠ t) (hb : ∀ b, Main.btag b ≠ t) :
    (Main.linkBlock sender links st).2.count t = st.2.count t := by
  unfold Main.linkBlock
  split
  · rw [count_addIf, Main.count_brandStep_other t _ _ _ hb, count_addIf, count_addIf]
    simp [h1, h2, h3]
  · rfl

/-- The CLI link block appends `lookalike_hint` exactly when the link field is
active and the lookalike condition holds. -/
theorem Main.count_linkBlock_look (sender links : Str) (st : Int × List Str) :
    (Main.linkBlock sender links st).2.count (str "lookalike_hint") =
      st.2.count (str "lookalike_hint") +
        (if Main.linkActive links ∧ Main.lookCond links (Main.domain_from_url links) = true
         then 1 else 0) := by
  unfold Main.linkBlock
  split
  · rename_i hact
    rw [count_addIf,
      Main.count_brandStep_other _ _ _ _
        (fun b => ne_of_head (Main.btag_head b)
          (show (str "lookalike_hint").head? = some 'l' from rfl) (by decide)),
      count_addIf, count_addIf]
    have h1 : str "link:http" ≠ str "lookalike_hint" := by decide
    have h2 : str "link_domain_mismatch" ≠ str "lookalike_hint" := by decide
    simp [h1, h2, hact]
  · rename_i hact
    simp [hact]

/-- The CLI link block appends the brand tag of `b` exactly when the link
field is active and `b` is the first matching brand. -/
theorem Main.count_linkBlock_brand (sender links : Str) (st : Int × List Str) (b : Str) :
    (Main.linkBlock sender links st).2.count (Main.btag b) =
      st.2.count (Main.btag b) +
        (if Main.linkActive links ∧
            Main.BRAND_KEYWORDS.find?
              (Main.brandCond sender (Main.domain_from_email sender)) = some b
         then 1 else 0) := by
  unfold Main.linkBlock
  split
  · rename_i hact
    rw [count_addIf, Main.count_brandStep_self, count_addIf, count_addIf]
    have h1 : str "link:http" ≠ Main.btag b :=
      ne_of_head (show (str "link:http").head? = some 'l' from rfl) (Main.btag_head b) (by decide)
    have h2 : str "link_domain_mismatch" ≠ Main.btag b :=
      ne_of_head (show (str "link_domain_mismatch").head? = some 'l' from rfl)
        (Main.btag_head b) (by decide)
    have h3 : str "lookalike_hint" ≠ Main.btag b :=
      ne_of_head (show (str "lookalike_hint").head? = some 'l' from rfl)
        (Main.btag_head b) (by decide)
    simp [h1, h2, h3, hact]
  · rename_i hact
    simp [hact]

/-- The CLI attachment block does not touch tags outside its two rules. -/
theorem Main.count_attachBlock_other (t att : Str) (st : Int × List Str)
    (h1 : str "has_attachment" ≠ t) (h2 : str "risky_attachment_type" ≠ t) :
    (Main.attachBlock att st).2.count t = st.2.count t := by
  unfold Main.attachBlock
  split
  · rw [count_addIf]
    show (st.2 ++ [str "has_attachment"]).count t + _ = _
    rw [List.count_append]
    simp [List.count_singleton, h1, h2]
  · rfl

/-! ### Counting one reason through the blocks of the web engine -/

/-- The web keyword loop does not touch reasons outside the keyword family. -/
theorem Web.count_kwStep_other_w (t blob : Str) (st : Int × List Str)
    (hk : ∀ k, Web.ktag k ≠ t) :
    (Web.kwStep blob st).2.count t = st.2.count t := by
  unfold Web.kwStep
  exact count_foldl_addIf_other t _ 2 Web.ktag _ st (fun b _ => hk b)

/-- The web keyword loop appends the reason of a configured keyword exactly
when the keyword occurs in the blob. -/
theorem Web.count_kwStep_self_w (blob : Str) (st : Int × List Str) (k : Str)
    (hk : k ∈ Web.KEYWORDS) :
    (Web.kwStep blob st).2.count (Web.ktag k) =
      st.2.count (Web.ktag k) + (if strIn k blob then 1 else 0) := by
  unfold Web.kwStep
  exact count_foldl_addIf_tagf _ 2 Web.ktag _ st k hk (by decide)

/-- The web attachment block touches only its own reason. -/
theorem Web.count_attachBlock_other_w (t att : Str) (st : Int × List Str)
    (h : str "Has attachment" ≠ t) :
    (Web.attachBlock att st).2.count t = st.2.count t := by
  unfold Web.attachBlock
  split
  · show (st.2 ++ [str "Has attachment"]).count t = st.2.count t
    rw [List.count_append]
    simp [List.count_singleton, h]
  · rfl

/-- The web link block does not touch reasons outside its three rule families. -/
theorem Web.count_linkBlock_other_w (t sender subject body links : Str) (st : Int × List Str)
    (h1 : str "HTTP link (not HTTPS)" ≠ t)
    (h2 : str "Link domain differs from sender domain" ≠ t)
    (hb : ∀ b, Web.btag b ≠ t) :
    (Web.linkBlock sender subject body links st).2.count t = st.2.count t := by
  unfold Web.linkBlock
  split
  · rw [count_foldl_addIf_other t (Web.brandCond sender subject body) 3
        (fun (p : Str × List Str) => Web.btag p.1) Web.BRANDS _ (fun p _ => hb p.1),
      count_addIf, count_addIf]
    simp [h1, h2]
  · rfl

/-- The web link block appends the brand reason of a configured brand exactly
when the link field is active and that brand's condition holds. -/
theorem Web.count_linkBlock_brand_w (sender subject body links : Str) (st : Int × List Str)
    (b : Str) (ds : List Str) (hmem : (b, ds) ∈ Web.BRANDS) :
    (Web.linkBlock sender subject body links st).2.count (Web.btag b) =
      st.2.count (Web.btag b) +
        (if Web.linkActive links ∧ Web.brandCond sender subject body (b, ds) = true
         then 1 else 0) := by
  unfold Web.linkBlock
  split
  · rename_i hact
    have hfold := count_foldl_addIf_tagf (Web.brandCond sender subject body) 3
      (fun (p : Str × List Str) => Web.btag p.1) Web.BRANDS
      (addIf (Web.get_domain links ≠ [] ∧ Web.senderDomain sender ≠ [] ∧
              Web.get_domain links ≠ Web.senderDomain sender)
        2 (str "Link domain differs from sender domain")
        (addIf (isPre (str "http://") (lower links)) 2 (str "HTTP link (not HTTPS)") st))
      (b, ds) hmem (by decide)
    simp only at hfold
    rw [hfold, count_addIf, count_addIf]
    have h1 : str "HTTP link (not HTTPS)" ≠ Web.btag b :=
      ne_of_head (show (str "HTTP link (not HTTPS)").head? = some 'H' from rfl)
        (Web.btag_head_w b) (by decide)
    have h2 : str "Link domain differs from sender domain" ≠ Web.btag b :=
      ne_of_head (show (str "Link domain differs from sender domain").head? = some 'L' from rfl)
        (Web.btag_head_w b) (by decide)
    simp [h1, h2, hact]
  · rename_i hact
    simp [hact]

/-- The web lookalike rule touches only its own reason. -/
theorem Web.count_lookBlock_other (t sender links : Str) (st : Int × List Str)
    (h : str "Possible lookalike pattern" ≠ t) :
    (Web.lookBlock sender links st).2.count t = st.2.count t := by
  unfold Web.lookBlock
  rw [count_addIf]
  simp [h]

/-- The web lookalike rule appends its reason exactly when the lookalike
condition holds for the sender or the links field. -/
theorem Web.count_lookBlock_self (sender links : Str) (st : Int × List Str) :
    (Web.lookBlock sender links st).2.count (str "Possible lookalike pattern") =
      st.2.count (str "Possible lookalike pattern") +
        (if Web.lookalike_hint sender || Web.lookalike_hint links then 1 else 0) := by
  unfold Web.lookBlock
  rw [count_addIf]
  simp

/-! ### Bounding the number of brand reasons of the CLI engine -/

/-- The CLI keyword loop leaves `countP p` unchanged when every keyword tag
fails `p`. -/
theorem Main.countP_kwStep (p : Str → Bool) (text : Str) (st : Int × List Str)
    (hp : ∀ kw, p (Main.ktag kw) = false) :
    (Main.kwStep text st).2.countP p = st.2.countP p := by
  unfold Main.kwStep
  exact countP_foldl_addIf_other p _ 2 Main.ktag _ st (fun b _ => hp b)

/-- The CLI brand loop appends at most one reason. -/
theorem Main.countP_brandStep_le (p : Str → Bool) (sender sd : Str) (st : Int × List Str) :
    (Main.brandStep sender sd st).2.countP p ≤ st.2.countP p + 1 := by
  unfold Main.brandStep
  cases hf : Main.BRAND_KEYWORDS.find? (Main.brandCond sender sd) with
  | none => exact Nat.le_succ _
  | some b =>
    show (st.2 ++ [Main.btag b]).countP p ≤ st.2.countP p + 1
    rw [List.countP_append]
    have hone : List.countP p [Main.btag b] ≤ 1 := by
      cases hpb : p (Main.btag b) <;> simp [List.countP_cons, hpb]
    omega

/-- The CLI link block raises `countP p` by at most one when its three fixed
tags fail `p` (the only other tag it can append is the single brand tag). -/
theorem Main.countP_linkBlock_le (p : Str → Bool) (sender links : Str) (st : Int × List Str)
    (hp1 : p (str "link:http") = false) (hp2 : p (str "link_domain_mismatch") = false)
    (hp3 : p (str "lookalike_hint") = false) :
    (Main.linkBlock sender links st).2.countP p ≤ st.2.countP p + 1 := by
  unfold Main.linkBlock
  split
  · rw [countP_addIf]
    simp only [hp3, if_false, Bool.false_eq_true, ite_self, Nat.add_zero]
    refine le_trans (Main.countP_brandStep_le p _ _ _) ?_
    rw [countP_addIf, countP_addIf]
    simp [hp1, hp2]
  · exact Nat.le_succ _

/-- The CLI attachment block leaves `countP p` unchanged when its two tags
fail `p`. -/
theorem Main.countP_attachBlock (p : Str → Bool) (att : Str) (st : Int × List Str)
    (hp1 : p (str "has_attachment") = false) (hp2 : p (str "risky_attachment_type") = false) :
    (Main.attachBlock att st).2.countP p = st.2.countP p := by
  unfold Main.attachBlock
  split
  · rw [countP_addIf]
    show (st.2 ++ [str "has_attachment"]).countP p + _ = _
    rw [List.countP_append]
    simp [List.countP_cons, hp1, hp2]
  · rfl

/-- Claim C2 counterexample: the brand-mismatch rule is **not** independent of
the `links` field.  In the record `c2row` the brand keyword `paypal` occurs in
the normalized sender, is absent from the sender's domain, and no legitimate
paypal domain occurs in the sender; yet because the `links` field is empty,
neither engine appends a brand reason or adds any points. -/
theorem claim_c2_counterexample :
    strIn (str "paypal") (Main.rowSender c2row) = true ∧
    strIn (str "paypal") (Main.domain_from_email (Main.rowSender c2row)) = false ∧
    strIn (str "paypal.com") (Web.rowSender c2row) = false ∧
    (Main.score_email c2row).2.count (Main.btag (str "paypal")) = 0 ∧
    (Web.score_email c2row).2.count (Web.btag (str "paypal")) = 0 ∧
    (Main.score_email c2row).1 = 0 ∧
    (Web.score_email c2row).1 = 0 := by
  decide

/-- Claim C2 (amended): the brand-mismatch rule fires only when the `links`
field (after trimming) is non-empty and not `none` case-insensitively.  Under
that proviso: in the CLI profile the first brand whose keyword occurs in the
normalized sender and is absent from the sender's domain gets its
`brand_domain_mismatch` reason appended exactly once (+3 by C1); in the web
profile every configured brand whose keyword occurs in the sender and none of
whose legitimate domains occurs in the sender gets its brand reason appended
exactly once. -/
theorem claim_c2_amended (row : Dict) (b : Str) (ds : List Str) :
    (Main.linkActive (Main.rowLinks row) →
      Main.BRAND_KEYWORDS.find?
        (Main.brandCond (Main.rowSender row)
          (Main.domain_from_email (Main.rowSender row))) = some b →
      (Main.score_email row).2.count (Main.btag b) = 1) ∧
    ((b, ds) ∈ Web.BRANDS → Web.linkActive (Web.rowLinks row) →
      strIn b (Web.rowSender row) = true →
      ds.any (fun d => strIn d (Web.rowSender row)) = false →
      (Web.score_email row).2.count (Web.btag b) = 1) := by
  constructor
  · intro hact hfind
    unfold Main.score_email
    rw [Main.count_attachBlock_other _ _ _
        (ne_of_head (show (str "has_attachment").head? = some 'h' from rfl)
          (Main.btag_head b) (by decide))
        (ne_of_head (show (str "risky_attachment_type").head? = some 'r' from rfl)
          (Main.btag_head b) (by decide)),
      Main.count_linkBlock_brand,
      Main.count_kwStep_other _ _ _
        (fun kw => ne_of_head (Main.ktag_head kw) (Main.btag_head b) (by decide))]
    simp [hact, hfind]
  · intro hmem hact hs hd
    unfold Web.score_email
    rw [Web.count_lookBlock_other _ _ _ _
        (ne_of_head (show (str "Possible lookalike pattern").head? = some 'P' from rfl)
          (Web.btag_head_w b) (by decide)),
      Web.count_linkBlock_brand_w _ _ _ _ _ b ds hmem,
      Web.count_attachBlock_other_w _ _ _
        (ne_of_head (show (str "Has attachment").head? = some 'H' from rfl)
          (Web.btag_head_w b) (by decide)),
      Web.count_kwStep_other_w _ _ _
        (fun k => ne_of_head (Web.ktag_head_w k) (Web.btag_head_w b) (by decide))]
    have hcond : Web.brandCond (Web.rowSender row) (Web.rowSubject row) (Web.rowBody row)
        (b, ds) = true := by
      simp [Web.brandCond, hs, hd]
    simp [hact, hcond]

/-- Claim C2 witness: on a record with sender `paypal@evil.com` and link
`http://x.com`, both engines append the paypal brand reason exactly once. -/
theorem claim_c2_witness :
    Main.linkActive (Main.rowLinks c9row) ∧
    (Main.score_email c9row).2.count (Main.btag (str "paypal")) = 1 ∧
    (Web.score_email c9row).2.count (Web.btag (str "paypal")) = 1 := by
  have h := claim_c2_amended c9row (str "paypal") [str "paypal.com"]
  exact ⟨by decide, h.1 (by decide) (by decide),
    h.2 (by decide) (by decide) (by decide) (by decide)⟩

/-- Claim C3 counterexample: the lookalike-hint rule does **not** fire for
every digit in the link.  The record `c3row` has link `http://evil2.com`,
whose digit `2` satisfies the claimed trigger, yet neither engine appends a
lookalike reason (the CLI profile tests only the character `0` and a hyphen
in the link domain; the web profile tests only `0`, `1` and the four
secure and login patterns). -/
theorem claim_c3_counterexample :
    ('2'.isDigit = true) ∧
    strIn (str "2") (Main.rowLinks c3row) = true ∧
    strIn (str "2") (Web.rowLinks c3row) = true ∧
    (Main.score_email c3row).2.count (str "lookalike_hint") = 0 ∧
    (Web.score_email c3row).2.count (str "Possible lookalike pattern") = 0 := by
  decide

/-- Claim C3 (amended): the lookalike rule fires (appending its reason exactly
once) iff, in the CLI profile, the links field is active and either `"0"`
occurs in the links string or the link domain contains a hyphen; and, in the
web profile, iff the lowercased sender or links field contains one of `"0"`,
`"1"`, `"secure-"`, `"-secure"`, `"login-"`, `"-login"`. -/
theorem claim_c3_amended (row : Dict) :
    (Main.score_email row).2.count (str "lookalike_hint") =
      (if Main.linkActive (Main.rowLinks row) ∧
          Main.lookCond (Main.rowLinks row)
            (Main.domain_from_url (Main.rowLinks row)) = true
       then 1 else 0) ∧
    (Web.score_email row).2.count (str "Possible lookalike pattern") =
      (if Web.lookalike_hint (Web.rowSender row) || Web.lookalike_hint (Web.rowLinks row)
       then 1 else 0) := by
  constructor
  · unfold Main.score_email
    rw [Main.count_attachBlock_other _ _ _ (by decide) (by decide),
      Main.count_linkBlock_look,
      Main.count_kwStep_other _ _ _
        (fun kw => ne_of_head (Main.ktag_head kw)
          (show (str "lookalike_hint").head? = some 'l' from rfl) (by decide))]
    simp
  · unfold Web.score_email
    rw [Web.count_lookBlock_self,
      Web.count_linkBlock_other_w _ _ _ _ _ _ (by decide) (by decide)
        (fun b => ne_of_head (Web.btag_head_w b)
          (show (str "Possible lookalike pattern").head? = some 'P' from rfl) (by decide)),
      Web.count_attachBlock_other_w _ _ _ (by decide),
      Web.count_kwStep_other_w _ _ _
        (fun k => ne_of_head (Web.ktag_head_w k)
          (show (str "Possible lookalike pattern").head? = some 'P' from rfl) (by decide))]
    simp

/-- Claim C4: in the CLI engine, each configured suspicious keyword that
occurs as a substring of the lowercased `subject + " " + body` text
contributes its `keyword:<word>` reason exactly once (worth +2 by C1), and a
configured keyword that does not occur there contributes no reason at all. -/
theorem claim_c4_keyword_rule (row : Dict) (kw : Str)
    (hkw : kw ∈ Main.SUSPICIOUS_KEYWORDS) :
    (Main.score_email row).2.count (Main.ktag kw) =
      (if strIn kw (Main.rowText row) then 1 else 0) ∧
    (Main.ktag kw ∈ (Main.score_email row).2 ↔ strIn kw (Main.rowText row) = true) := by
  have hc : (Main.score_email row).2.count (Main.ktag kw) =
      (if strIn kw (Main.rowText row) then 1 else 0) := by
    unfold Main.score_email
    rw [Main.count_attachBlock_other _ _ _
        (ne_of_head (show (str "has_attachment").head? = some 'h' from rfl)
          (Main.ktag_head kw) (by decide))
        (ne_of_head (show (str "risky_attachment_type").head? = some 'r' from rfl)
          (Main.ktag_head kw) (by decide)),
      Main.count_linkBlock_other _ _ _ _
        (ne_of_head (show (str "link:http").head? = some 'l' from rfl)
          (Main.ktag_head kw) (by decide))
        (ne_of_head (show (str "link_domain_mismatch").head? = some 'l' from rfl)
          (Main.ktag_head kw) (by decide))
        (ne_of_head (show (str "lookalike_hint").head? = some 'l' from rfl)
          (Main.ktag_head kw) (by decide))
        (fun b => ne_of_head (Main.btag_head b) (Main.ktag_head kw) (by decide)),
      Main.count_kwStep_self _ _ kw hkw]
    simp
  refine ⟨hc, ?_⟩
  rw [← List.count_pos_iff (a := Main.ktag kw), hc]
  cases hs : strIn kw (Main.rowText row) <;> simp [hs]

/-- Claim C4 witness: the keyword `suspended` in subject `Account Suspended`
yields the reason `keyword:suspended`. -/
theorem claim_c4_witness :
    (str "suspended") ∈ Main.SUSPICIOUS_KEYWORDS ∧
    Main.ktag (str "suspended") ∈ (Main.score_email c4row).2 := by
  refine ⟨by decide, ?_⟩
  exact (claim_c4_keyword_rule c4row (str "suspended") (by decide)).2.mpr (by decide)

/-- Claim C9: the CLI engine appends at most one `brand_domain_mismatch`
reason per record (the loop stops at the first matching brand), whereas the
web engine appends one brand reason per distinct configured brand whose
condition holds (gated, like the whole brand rule, on an active link field). -/
theorem claim_c9_brand_profiles (row : Dict) (b : Str) (ds : List Str)
    (hmem : (b, ds) ∈ Web.BRANDS) :
    (Main.score_email row).2.countP (fun t => isPre (str "brand_domain_mismatch:") t) ≤ 1 ∧
    (Web.score_email row).2.count (Web.btag b) =
      (if Web.linkActive (Web.rowLinks row) ∧
          Web.brandCond (Web.rowSender row) (Web.rowSubject row) (Web.rowBody row)
            (b, ds) = true
       then 1 else 0) := by
  constructor
  · unfold Main.score_email
    rw [Main.countP_attachBlock _ _ _ (by decide) (by decide)]
    refine le_trans
      (Main.countP_linkBlock_le _ _ _ _ (by decide) (by decide) (by decide)) ?_
    rw [Main.countP_kwStep _ _ _ (fun kw => rfl)]
    simp
  · unfold Web.score_email
    rw [Web.count_lookBlock_other _ _ _ _
        (ne_of_head (show (str "Possible lookalike pattern").head? = some 'P' from rfl)
          (Web.btag_head_w b) (by decide)),
      Web.count_linkBlock_brand_w _ _ _ _ _ b ds hmem,
      Web.count_attachBlock_other_w _ _ _
        (ne_of_head (show (str "Has attachment").head? = some 'H' from rfl)
          (Web.btag_head_w b) (by decide)),
      Web.count_kwStep_other_w _ _ _
        (fun k => ne_of_head (Web.ktag_head_w k) (Web.btag_head_w b) (by decide))]
    simp

/-- Claim C9 witness: on the record `c9row` the CLI engine appends at most one
brand reason and the web engine appends the paypal brand reason exactly once. -/
theorem claim_c9_witness :
    (Main.score_email c9row).2.countP (fun t => isPre (str "brand_domain_mismatch:") t) ≤ 1 ∧
    (Web.score_email c9row).2.count (Web.btag (str "paypal")) = 1 := by
  have h := claim_c9_brand_profiles c9row (str "paypal") [str "paypal.com"] (by decide)
  refine ⟨h.1, ?_⟩
  rw [h.2]
  decide

/-- Claim C1: for every input record, both variants of `score_email` return a
score that is nonnegative and equal to the sum of the fixed point deltas of
the reason tags in the returned reason list (each appended reason corresponds
to one rule firing with its fixed nonnegative delta). -/
theorem claim_c1_score_invariant (row : Dict) :
    0 ≤ (Main.score_email row).1 ∧
    (Main.score_email row).1 = deltaSum Main.delta (Main.score_email row).2 ∧
    0 ≤ (Web.score_email row).1 ∧
    (Web.score_email row).1 = deltaSum Web.delta (Web.score_email row).2 := by
  have hm : (Main.score_email row).1 = deltaSum Main.delta (Main.score_email row).2 :=
    Main.attachBlock_deltaSum _ _
      (Main.linkBlock_deltaSum _ _ _
        (Main.kwStep_deltaSum _ _ rfl))
  have hw : (Web.score_email row).1 = deltaSum Web.delta (Web.score_email row).2 :=
    Web.lookBlock_deltaSum _ _ _
      (Web.linkBlock_deltaSum_w _ _ _ _ _
        (Web.attachBlock_deltaSum_w _ _
          (Web.kwStep_deltaSum_w _ _ rfl)))
  refine ⟨?_, hm, ?_, hw⟩
  · rw [hm]; exact deltaSum_nonneg Main.delta Main.delta_nonneg _
  · rw [hw]; exact deltaSum_nonneg Web.delta Web.delta_nonneg_w _

/-! ### Properties of the stable descending sort -/

/-- The defining equation of `insDesc` on a nonempty list. -/
theorem insDesc_cons {α : Type} (k : α → Int) (x y : α) (ys : List α) :
    insDesc k x (y :: ys) = if k x < k y then y :: insDesc k x ys else x :: y :: ys := rfl

/-- Inserting an element permutes it to the front. -/
theorem insDesc_perm {α : Type} (k : α → Int) (x : α) :
    ∀ l : List α, (insDesc k x l).Perm (x :: l)
  | [] => List.Perm.refl _
  | y :: ys => by
    unfold insDesc
    split
    · exact ((insDesc_perm k x ys).cons y).trans (List.Perm.swap x y ys)
    · exact List.Perm.refl _

/-- The sort is a permutation of its input. -/
theorem sortDesc_perm {α : Type} (k : α → Int) :
    ∀ l : List α, (sortDesc k l).Perm l
  | [] => List.Perm.refl _
  | x :: xs => (insDesc_perm k x (sortDesc k xs)).trans ((sortDesc_perm k xs).cons x)

/-- Insertion preserves descending sortedness. -/
theorem insDesc_sorted {α : Type} (k : α → Int) (x : α) :
    ∀ {l : List α}, l.Pairwise (fun a b => k b ≤ k a) →
      (insDesc k x l).Pairwise (fun a b => k b ≤ k a) := by
  intro l
  induction l with
  | nil => intro _; simp [insDesc]
  | cons y ys ih =>
    intro h
    rw [List.pairwise_cons] at h
    obtain ⟨hy, hys⟩ := h
    unfold insDesc
    split
    · rename_i hlt
      rw [List.pairwise_cons]
      refine ⟨?_, ih hys⟩
      intro z hz
      rcases List.mem_cons.mp ((insDesc_perm k x ys).mem_iff.mp hz) with rfl | hz'
      · exact le_of_lt hlt
      · exact hy z hz'
    · rename_i hnlt
      rw [List.pairwise_cons]
      refine ⟨?_, List.pairwise_cons.mpr ⟨hy, hys⟩⟩
      intro z hz
      rcases List.mem_cons.mp hz with rfl | hz'
      · exact le_of_not_lt hnlt
      · exact (hy z hz').trans (le_of_not_lt hnlt)

/-- The sort output is descending in the key. -/
theorem sortDesc_sorted {α : Type} (k : α → Int) :
    ∀ l : List α, (sortDesc k l).Pairwise (fun a b => k b ≤ k a)
  | [] => List.Pairwise.nil
  | x :: xs => insDesc_sorted k x (sortDesc_sorted k xs)

/-- Inserting an element the filter drops does not change the filtered list. -/
theorem filter_insDesc_neg {α : Type} (k : α → Int) (q : α → Bool) (x : α)
    (hq : q x = false) :
    ∀ l : List α, (insDesc k x l).filter q = l.filter q
  | [] => by simp [insDesc, hq]
  | y :: ys => by
    unfold insDesc
    split
    · rw [List.filter_cons, List.filter_cons, filter_insDesc_neg k q x hq ys]
    · simp [List.filter_cons, hq]

/-- Inserting an element the filter keeps commutes with filtering a
descending-sorted list. -/
theorem filter_insDesc_pos {α : Type} (k : α → Int) (q : α → Bool) (x : α)
    (hq : q x = true) :
    ∀ l : List α, l.Pairwise (fun a b => k b ≤ k a) →
      (insDesc k x l).filter q = insDesc k x (l.filter q)
  | [], _ => by simp [insDesc, hq]
  | y :: ys, h => by
    rw [List.pairwise_cons] at h
    obtain ⟨hy, hys⟩ := h
    by_cases hlt : k x < k y
    · rw [insDesc_cons, if_pos hlt, List.filter_cons, List.filter_cons]
      by_cases hqy : q y = true
      · rw [if_pos hqy, if_pos hqy, filter_insDesc_pos k q x hq ys hys,
          insDesc_cons, if_pos hlt]
      · rw [if_neg hqy, if_neg hqy, filter_insDesc_pos k q x hq ys hys]
    · rw [insDesc_cons, if_neg hlt]
      cases hfy : (y :: ys).filter q with
      | nil => rw [List.filter_cons, if_pos hq, hfy]; rfl
      | cons z rest =>
        have hz : z ∈ y :: ys :=
          List.mem_of_mem_filter (show z ∈ (y :: ys).filter q by
            rw [hfy]; exact List.mem_cons_self z rest)
        have hzx : ¬ k x < k z := by
          rcases List.mem_cons.mp hz with rfl | hz'
          · exact hlt
          · exact fun hlt2 => hlt (hlt2.trans_le (hy z hz'))
        rw [List.filter_cons, if_pos hq, hfy, insDesc_cons, if_neg hzx]

/-- The stable sort commutes with every filter: filtering first and then
sorting yields the sorted list filtered. -/
theorem sortDesc_filter {α : Type} (k : α → Int) (q : α → Bool) :
    ∀ l : List α, (sortDesc k l).filter q = sortDesc k (l.filter q)
  | [] => rfl
  | x :: xs => by
    show (insDesc k x (sortDesc k xs)).filter q = sortDesc k ((x :: xs).filter q)
    rw [List.filter_cons]
    by_cases hq : q x = true
    · rw [if_pos hq, filter_insDesc_pos k q x hq _ (sortDesc_sorted k xs),
        sortDesc_filter k q xs]
      rfl
    · have hq' : q x = false := by simpa using hq
      rw [if_neg hq, filter_insDesc_neg k q x hq', sortDesc_filter k q xs]

/-- Inserting an element no-smaller than everything puts it in front. -/
theorem insDesc_of_not_lt {α : Type} (k : α → Int) (x : α) :
    ∀ l : List α, (∀ z ∈ l, ¬ k x < k z) → insDesc k x l = x :: l
  | [], _ => rfl
  | y :: ys, h => by
    unfold insDesc
    rw [if_neg (h y (List.mem_cons_self y ys))]

/-- Sorting a list whose keys are all equal leaves it unchanged. -/
theorem sortDesc_const {α : Type} (k : α → Int) (s : Int) :
    ∀ l : List α, (∀ z ∈ l, k z = s) → sortDesc k l = l
  | [], _ => rfl
  | x :: xs, h => by
    show insDesc k x (sortDesc k xs) = x :: xs
    rw [sortDesc_const k s xs (fun z hz => h z (List.mem_cons_of_mem x hz))]
    refine insDesc_of_not_lt k x xs (fun z hz => ?_)
    rw [h z (List.mem_cons_of_mem x hz), h x (List.mem_cons_self x xs)]
    exact lt_irrefl s

/-- Stability: the elements of any one key value appear in the sorted list in
exactly their input order. -/
theorem sortDesc_stable {α : Type} (k : α → Int) (s : Int) (l : List α) :
    (sortDesc k l).filter (fun y => decide (k y = s)) =
      l.filter (fun y => decide (k y = s)) := by
  rw [sortDesc_filter]
  refine sortDesc_const k s _ (fun z hz => ?_)
  exact of_decide_eq_true (List.mem_filter.mp hz).2

/-- Claim C7: for every list of records and threshold `T`, the CLI's displayed
list (sort by score descending, then filter by `score ≥ T`) contains exactly
the scored records with score at least `T`; it is descending in the score;
ties keep their input order (stability); and the web pipeline (filter first,
then sort) produces exactly the sorted-then-filtered list, which is likewise
descending and contains exactly the records with score at least `T`. -/
theorem claim_c7_sort_filter (rows : List Dict) (T : Int) :
    (mainDisplayed rows T).Perm
      ((scoreAllMain rows).filter (fun e => decide (T ≤ skey e))) ∧
    (mainDisplayed rows T).Pairwise (fun a b => skey b ≤ skey a) ∧
    (∀ s : Int, (mainSorted rows).filter (fun e => decide (skey e = s)) =
      (scoreAllMain rows).filter (fun e => decide (skey e = s))) ∧
    webDisplayed rows T =
      (sortDesc skey (scoreAllWeb rows)).filter (fun e => decide (T ≤ skey e)) ∧
    (webDisplayed rows T).Pairwise (fun a b => skey b ≤ skey a) ∧
    (webDisplayed rows T).Perm
      ((scoreAllWeb rows).filter (fun e => decide (T ≤ skey e))) := by
  refine ⟨?_, ?_, ?_, ?_, ?_, ?_⟩
  · exact (sortDesc_perm skey (scoreAllMain rows)).filter _
  · exact (sortDesc_sorted skey (scoreAllMain rows)).filter _
  · intro s
    exact sortDesc_stable skey s (scoreAllMain rows)
  · exact (sortDesc_filter skey _ (scoreAllWeb rows)).symm
  · exact sortDesc_sorted skey _
  · exact sortDesc_perm skey _

/-! ### Domain extraction claims -/

/-- Claim C5: `domain_from_url` (and the web profile's `get_domain`) is total:
when URL parsing fails it returns the empty string, otherwise it returns the
lowercased (and, in the CLI profile, trimmed) network-location component; a
non-URL string like `"not a url"` has no netloc and yields the empty string. -/
theorem claim_c5_domain_from_url (u : Str) :
    (∀ e : Unit, pyUrlsplitNetloc u = .error e →
      Main.domain_from_url u = [] ∧ Web.get_domain u = []) ∧
    (∀ n : Str, pyUrlsplitNetloc u = .ok n →
      Main.domain_from_url u = strip (lower n) ∧ Web.get_domain u = lower n) ∧
    Main.domain_from_url (str "not a url") = [] ∧
    Web.get_domain (str "not a url") = [] := by
  refine ⟨?_, ?_, by decide, by decide⟩
  · intro e h
    unfold Main.domain_from_url Web.get_domain
    rw [h]
    exact ⟨rfl, rfl⟩
  · intro n h
    unfold Main.domain_from_url Web.get_domain
    rw [h]
    exact ⟨rfl, rfl⟩

/-- Claim C5 witness: a URL with an unmatched bracket parses to an error and
yields the empty domain; a well-formed mixed-case URL yields its lowercased
host. -/
theorem claim_c5_witness :
    pyUrlsplitNetloc (str "http://[a") = .error () ∧
    Main.domain_from_url (str "http://[a") = [] ∧
    pyUrlsplitNetloc (str "HTTP://ExAmple.COM/x") = .ok (str "ExAmple.COM") ∧
    Main.domain_from_url (str "HTTP://ExAmple.COM/x") = str "example.com" ∧
    Web.get_domain (str "HTTP://ExAmple.COM/x") = str "example.com" := by
  refine ⟨rfl,
    ((claim_c5_domain_from_url (str "http://[a")).1 () rfl).1,
    rfl, ?_, ?_⟩
  · have h := ((claim_c5_domain_from_url (str "HTTP://ExAmple.COM/x")).2.1
      (str "ExAmple.COM") rfl).1
    rw [h]
    decide
  · have h := ((claim_c5_domain_from_url (str "HTTP://ExAmple.COM/x")).2.1
      (str "ExAmple.COM") rfl).2
    rw [h]
    decide

/-- Claim C6: `domain_from_email` returns the empty string when the input has
no `@`, and otherwise the lowercased, trimmed substring after the first `@`;
in particular `a@B.COM ↦ b.com` and `no-at-sign ↦ ""`. -/
theorem claim_c6_domain_from_address :
    (∀ s : Str, '@' ∉ s → Main.domain_from_email s = []) ∧
    (∀ (pre post : Str), '@' ∉ pre →
      Main.domain_from_email (pre ++ '@' :: post) = strip (lower post)) ∧
    Main.domain_from_email (str "a@B.COM") = str "b.com" ∧
    Main.domain_from_email (str "no-at-sign") = [] := by
  refine ⟨?_, ?_, by decide, by decide⟩
  · intro s h
    unfold Main.domain_from_email
    rw [afterFirst_eq_none h]
  · intro pre post h
    unfold Main.domain_from_email
    rw [afterFirst_append post h]

/-- Claim C6 witness. -/
theorem claim_c6_witness :
    ('@' ∉ str "a") ∧
    Main.domain_from_email (str "a" ++ '@' :: str "B.COM") = strip (lower (str "B.COM")) ∧
    ('@' ∉ str "xyz") ∧
    Main.domain_from_email (str "xyz") = [] :=
  ⟨by decide, claim_c6_domain_from_address.2.1 (str "a") (str "B.COM") (by decide),
    by decide, claim_c6_domain_from_address.1 (str "xyz") (by decide)⟩

/-! ### Empty records and the frame property -/

/-- A field that is absent or empty normalizes to the empty string. -/
theorem fget_empty {row : Dict} {k : String}
    (h : pyGet row (str k) = none ∨ pyGet row (str k) = some []) : fget row k = [] := by
  unfold fget
  rcases h with h | h <;> rw [h] <;> rfl

/-- Claim C8: a record whose five recognized fields are all absent or empty
(whatever its other keys hold) scores 0 with no reasons in both engines; the
engines are total, so no input faults them. -/
theorem claim_c8_empty_record (row : Dict)
    (hs : pyGet row (str "sender") = none ∨ pyGet row (str "sender") = some [])
    (hj : pyGet row (str "subject") = none ∨ pyGet row (str "subject") = some [])
    (hb : pyGet row (str "body") = none ∨ pyGet row (str "body") = some [])
    (hl : pyGet row (str "links") = none ∨ pyGet row (str "links") = some [])
    (ha : pyGet row (str "attachments") = none ∨ pyGet row (str "attachments") = some []) :
    Main.score_email row = (0, []) ∧ Web.score_email row = (0, []) := by
  have h1 := fget_empty hs
  have h2 := fget_empty hj
  have h3 := fget_empty hb
  have h4 := fget_empty hl
  have h5 := fget_empty ha
  constructor
  · simp only [Main.score_email, Main.rowAttachments, Main.rowSender, Main.rowLinks,
      Main.rowText, h1, h2, h3, h4, h5]
    decide
  · simp only [Web.score_email, Web.rowBlob, Web.rowSender, Web.rowSubject, Web.rowBody,
      Web.rowLinks, Web.rowAttachments, h1, h2, h3, h4, h5]
    decide

/-- Claim C8 witness: the record holding only an `id` key scores 0 with no
reasons in both engines. -/
theorem claim_c8_witness :
    Main.score_email c8row = (0, []) ∧ Web.score_email c8row = (0, []) :=
  claim_c8_empty_record c8row (Or.inl (by decide)) (Or.inl (by decide))
    (Or.inl (by decide)) (Or.inl (by decide)) (Or.inl (by decide))

/-- Claim C10: both engines leave the record unchanged — the state-threaded
variants, in which every `row.get` access passes the dict along, return the
dict exactly as it came in while computing the same score and reasons — and
the result depends only on the five recognized fields, so no other key is
read or written. -/
theorem claim_c10_frame (row : Dict) :
    (Main.score_email_st row).2 = row ∧
    (Main.score_email_st row).1 = Main.score_email row ∧
    (Web.score_email_st row).2 = row ∧
    (Web.score_email_st row).1 = Web.score_email row ∧
    (∀ row2 : Dict,
      pyGet row (str "sender") = pyGet row2 (str "sender") →
      pyGet row (str "subject") = pyGet row2 (str "subject") →
      pyGet row (str "body") = pyGet row2 (str "body") →
      pyGet row (str "links") = pyGet row2 (str "links") →
      pyGet row (str "attachments") = pyGet row2 (str "attachments") →
      Main.score_email row = Main.score_email row2 ∧
      Web.score_email row = Web.score_email row2) := by
  refine ⟨rfl, rfl, rfl, rfl, ?_⟩
  intro row2 e1 e2 e3 e4 e5
  constructor
  · simp only [Main.score_email, Main.rowAttachments, Main.rowSender, Main.rowLinks,
      Main.rowText, fget, e1, e2, e3, e4, e5]
  · simp only [Web.score_email, Web.rowBlob, Web.rowSender, Web.rowSubject, Web.rowBody,
      Web.rowLinks, Web.rowAttachments, fget, e1, e2, e3, e4, e5]

/-- Claim C10 witness: two records agreeing on the recognized fields but
differing elsewhere score identically. -/
theorem claim_c10_witness :
    Main.score_email c10rowA = Main.score_email c10rowB ∧
    Web.score_email c10rowA = Web.score_email c10rowB :=
  (claim_c10_frame c10rowA).2.2.2.2 c10rowB (by decide) (by decide) (by decide)
    (by decide) (by decide)

end Phish
